import Mathlib

/-!
Verification of the email-sender application (src/main.py).

Strings are modelled as lists of characters (`Str`), file contents as lists
of byte values (`Bytes`).  Pure functions of the source are translated into
Lean functions; the filesystem, the document store and the SMTP relay are
modelled as explicit state / behaviour parameters.  Python library calls
(re, tempfile, smtplib, pymongo) are modelled from their documented
semantics where the source relies on them.
-/

set_option autoImplicit false

abbrev Str := List Char

abbrev Bytes := List Nat

deriving instance DecidableEq for Except

/-! ## AddressValidator: is_valid_email (main.py lines 89-91)

The source is a single Python regular expression match:
  re.match(r"^[a-zA-Z0-9_.+-]+@[a-zA-Z0-9-]+\.[a-zA-Z0-9-.]+$", email)
Python `$` (without re.MULTILINE) matches at the end of the string and
also just before one trailing newline, so the model allows an optional
final newline.  Since none of the three character classes contains the
separator that terminates it (the local class lacks at-sign, the first
domain class lacks the dot, the tail class lacks the newline), the greedy
takeWhile run is the unique possible match for each plus-group, so the
matcher below computes exactly the regular-expression match. -/

def isLocalChar (c : Char) : Bool :=
  c.isAlpha || c.isDigit || c == '_' || c == '.' || c == '+' || c == '-'

def isDomChar (c : Char) : Bool :=
  c.isAlpha || c.isDigit || c == '-'

def isTailChar (c : Char) : Bool :=
  c.isAlpha || c.isDigit || c == '-' || c == '.'

/-- Matches `[a-zA-Z0-9-.]+$` (where Python `$` also accepts one final newline). -/
def matchTailPart (t : Str) : Bool :=
  !(t.takeWhile isTailChar).isEmpty &&
    (t.dropWhile isTailChar == [] || t.dropWhile isTailChar == ['\n'])

/-- Matches `[a-zA-Z0-9-]+\.[a-zA-Z0-9-.]+$`. -/
def matchDomainPart (r : Str) : Bool :=
  !(r.takeWhile isDomChar).isEmpty &&
    (match r.dropWhile isDomChar with
     | '.' :: t => matchTailPart t
     | _ => false)

/-- main.py line 89: `is_valid_email`. -/
def is_valid_email (email : Str) : Bool :=
  !(email.takeWhile isLocalChar).isEmpty &&
    (match email.dropWhile isLocalChar with
     | '@' :: r => matchDomainPart r
     | _ => false)

/-! ## Recipient normalization (main.py line 195)

`[r.strip() for r in recipients_raw.split(",") if r.strip()]` -/

/-- Characters removed by Python str.strip (ASCII whitespace; the rarely
occurring unicode space characters are not modelled). -/
def pyIsSpace (c : Char) : Bool :=
  c == ' ' || c == '\t' || c == '\n' || c == '\r' || c == '\x0b' || c == '\x0c'

/-- Python str.strip: remove leading and trailing whitespace. -/
def pyStrip (s : Str) : Str :=
  ((s.dropWhile pyIsSpace).reverse.dropWhile pyIsSpace).reverse

/-- Python str.split on a single-character separator. -/
def splitOnChar (sep : Char) : Str → List Str
  | [] => [[]]
  | c :: rest =>
    if c = sep then [] :: splitOnChar sep rest
    else
      match splitOnChar sep rest with
      | [] => [[c]]
      | p :: ps => (c :: p) :: ps

def splitComma : Str → List Str := splitOnChar ','

/-- main.py line 195. -/
def normalize_recipients (raw : Str) : List Str :=
  ((splitComma raw).map pyStrip).filter (fun r => !r.isEmpty)

/-! ## AttachmentStager: save_uploaded_files_to_tmp (main.py lines 94-107)

The filesystem is modelled as an association list from paths to contents
plus a freshness counter.  `tempfile.NamedTemporaryFile(prefix="stmail_",
suffix=suffix, delete=False)` generates a fresh unique name; this is
modelled deterministically by deriving the unique middle part of the name
from the counter.  An I/O failure of `tmp.write` for an individual file is
modelled by the oracle `wfail` (keyed by the counter of the file being
written); in the source such a failure propagates as an exception, which
the model renders as `Except.error`.  On failure the temporary file has
already been created (with no content written). -/

structure UploadedFile where
  name : Str
  size : Nat
  content : Bytes
deriving DecidableEq

structure Disk where
  files : List (Str × Bytes)
  counter : Nat
deriving DecidableEq

def diskLookup : List (Str × Bytes) → Str → Option Bytes
  | [], _ => none
  | e :: rest, p => if e.1 = p then some e.2 else diskLookup rest p

def addFile (d : Disk) (p : Str) (c : Bytes) : Disk :=
  ⟨(p, c) :: d.files, d.counter + 1⟩

/-- The extension part of `os.path.splitext(name)` (for a bare file name,
as produced by the upload widget): the substring from the last dot on,
except that a name whose every character before its last dot is a dot has
no extension. -/
def splitext_ext (s : Str) : Str :=
  match s.reverse.dropWhile (fun c => !(c == '.')) with
  | [] => []
  | _ :: rest =>
    if rest.all (fun c => c == '.') then []
    else ((s.reverse.takeWhile (fun c => !(c == '.'))) ++ ['.']).reverse

/-- The unique temporary file name chosen for the k-th staged file:
prefix "stmail_" in the temporary directory, a unique middle part
(modelled from the counter), then the preserved extension. -/
def tmpPath (k : Nat) (ext : Str) : Str :=
  ("/tmp/stmail_".data) ++ List.replicate k 'u' ++ ext

def maxSize : Nat := 10 * 1024 * 1024

def warnMsg (name : Str) : Str :=
  ("File ".data) ++ name ++ (" exceeds 10MB and will be skipped.".data)

def writeFailMsg : Str := "I/O error while writing temporary file".data

structure StageOut where
  disk : Disk
  warnings : List Str
  result : Except Str (List Str)
deriving DecidableEq

/-- main.py lines 94-107. -/
def save_uploaded_files_to_tmp (files : List UploadedFile) (d : Disk)
    (wfail : Nat → Bool) : StageOut :=
  match files with
  | [] => ⟨d, [], Except.ok []⟩
  | f :: fs =>
    if f.size > maxSize then
      ⟨(save_uploaded_files_to_tmp fs d wfail).disk,
        warnMsg f.name :: (save_uploaded_files_to_tmp fs d wfail).warnings,
        (save_uploaded_files_to_tmp fs d wfail).result⟩
    else
      if wfail d.counter then
        ⟨addFile d (tmpPath d.counter (splitext_ext f.name)) [], [],
          Except.error writeFailMsg⟩
      else
        match save_uploaded_files_to_tmp fs
            (addFile d (tmpPath d.counter (splitext_ext f.name)) f.content) wfail with
        | ⟨d2, w2, Except.ok ps⟩ =>
          ⟨d2, w2, Except.ok (tmpPath d.counter (splitext_ext f.name) :: ps)⟩
        | ⟨d2, w2, Except.error e⟩ => ⟨d2, w2, Except.error e⟩

/-- The temporary names generated by the model: empty or dot-led
extension part (what `splitext_ext` returns). -/
def extLike : Str → Bool
  | [] => true
  | c :: _ => c == '.'

/-- Every path on disk is a temporary name generated from an exhausted
counter value; this is the freshness invariant under which
`tempfile.NamedTemporaryFile` never reuses a live name. -/
def DiskInv (d : Disk) : Prop :=
  ∀ en ∈ d.files, ∃ k ext, extLike ext = true ∧ k < d.counter ∧ en.1 = tmpPath k ext

/-! ## MessageBuilder: build_message (main.py lines 110-127)

`open(path, "rb")` may itself fail if the file disappears between the
`os.path.isfile` check and the read; this is modelled by the oracle
`rfail`, rendered as `Except.error` (an exception propagating out of
`build_message`). -/

def joinCommaSpace (parts : List Str) : Str :=
  List.intercalate (", ".data) parts

/-- `os.path.basename`: the part after the last slash. -/
def basename (p : Str) : Str :=
  (p.reverse.takeWhile (fun c => !(c == '/'))).reverse

structure EmailMsg where
  sender : Str
  toHeader : Str
  subject : Str
  body : Str
  attachments : List (Str × Bytes)
deriving DecidableEq

def gatherAttachments : List Str → Disk → (Str → Bool) → Except Str (List (Str × Bytes))
  | [], _, _ => Except.ok []
  | p :: ps, d, rfail =>
    match diskLookup d.files p with
    | none => gatherAttachments ps d rfail
    | some content =>
      if rfail p then Except.error ("I/O error while reading ".data ++ p)
      else
        match gatherAttachments ps d rfail with
        | Except.ok rest => Except.ok ((basename p, content) :: rest)
        | Except.error e => Except.error e

/-- main.py lines 110-127. -/
def build_message (sender : Str) (recipients : List Str) (subject body : Str)
    (attachment_paths : List Str) (d : Disk) (rfail : Str → Bool) :
    Except Str EmailMsg :=
  match gatherAttachments attachment_paths d rfail with
  | Except.ok atts =>
    Except.ok
      ⟨sender, joinCommaSpace recipients,
        (if subject.isEmpty then "No Subject".data else subject), body, atts⟩
  | Except.error e => Except.error e

/-! ## MailTransport: send_via_gmail_ssl (main.py lines 130-141)

The behaviour of the single SMTP session is an oracle.  Per the documented
semantics of smtplib, `SMTPAuthenticationError` is raised by `login` on a
rejected credential, and `sendmail` raises `SMTPRecipientsRefused` exactly
when every envelope recipient was refused (a partial refusal, with at
least one recipient accepted, does not raise); any other failure is some
other exception.  The function body catches these three cases and returns
a message; it cannot raise, which the model renders by totality.  One
session is attempted, never retried: `attempts` is always 1. -/

inductive RelayBehavior where
  | authFail : RelayBehavior
  | refuse : List Str → RelayBehavior
  | failWith : Str → RelayBehavior
deriving DecidableEq

structure TransportResult where
  attempts : Nat
  error : Option Str
deriving DecidableEq

def authFailedMsg : Str :=
  "Authentication failed. Check your Gmail email and app password in .env.".data

def refusedMsg : Str := "One or more recipient emails are invalid.".data

def sendFailMsg (e : Str) : Str := "Failed to send email: ".data ++ e

/-- main.py lines 130-141. -/
def send_via_gmail_ssl (sender app_password : Str) (recipients : List Str)
    (msg : EmailMsg) (relay : RelayBehavior) : TransportResult :=
  ⟨1,
    match relay with
    | RelayBehavior.authFail => some authFailedMsg
    | RelayBehavior.refuse refused =>
      if recipients.all (fun r => refused.contains r) then some refusedMsg
      else none
    | RelayBehavior.failWith e => some (sendFailMsg e)⟩

/-! ## SendOrchestrator: the send_btn handler (main.py lines 191-222) -/

inductive Outcome where
  | errorMsg : Str → Outcome
  | success : Outcome
  | uncaught : Str → Outcome
deriving DecidableEq

structure HandlerOut where
  outcome : Outcome
  disk : Disk
  tmp_paths : List Str
  built : Bool
  sendAttempts : Nat
deriving DecidableEq

/-- main.py lines 215-222: `for p in tmp_paths: try: if os.path.exists(p):
os.remove(p) except: pass`.  Removal of an existing file is modelled as
always succeeding (`os.remove` of an existing temporary file). -/
def removeFile : List (Str × Bytes) → Str → List (Str × Bytes)
  | [], _ => []
  | e :: rest, p => if e.1 = p then removeFile rest p else e :: removeFile rest p

def cleanup : List Str → Disk → Disk
  | [], d => d
  | p :: ps, d =>
    cleanup ps (if (diskLookup d.files p).isSome then ⟨removeFile d.files p, d.counter⟩ else d)

def pleaseEnterMsg : Str := "Please enter at least one recipient.".data

def invalidEmailsMsg (invalid : List Str) : Str :=
  "Invalid email addresses: ".data ++ joinCommaSpace invalid

/-! main.py lines 200-222: the try/finally part of the handler, reached
after validation, decomposed into its sequential steps.  `tmp_paths` is
the list the handler has accumulated when the finally block runs; an
exception inside the try block (modelled by `Except.error`) leaves any
paths of the failing staging call out of `tmp_paths`, exactly as
`tmp_paths.extend(...)` does in the source. -/

/-- The send step of the try block: report the transport error or the
success message, then (finally) clean up. -/
def stepSend (sender app_password : Str) (recipients : List Str)
    (msg : EmailMsg) (tmp : List Str) (d2 : Disk) (relay : RelayBehavior) :
    HandlerOut :=
  match (send_via_gmail_ssl sender app_password recipients msg relay).error with
  | some err =>
    ⟨Outcome.errorMsg err, cleanup tmp d2, tmp, true,
      (send_via_gmail_ssl sender app_password recipients msg relay).attempts⟩
  | none =>
    ⟨Outcome.success, cleanup tmp d2, tmp, true,
      (send_via_gmail_ssl sender app_password recipients msg relay).attempts⟩

/-- The build step of the try block: an exception from `build_message`
escapes the try block (cleanup still runs in the finally). -/
def stepBuild (sender app_password : Str) (recipients : List Str)
    (subject body : Str) (tmp : List Str) (d2 : Disk) (rfail : Str → Bool)
    (relay : RelayBehavior) : HandlerOut :=
  match build_message sender recipients subject body tmp d2 rfail with
  | Except.error e => ⟨Outcome.uncaught e, cleanup tmp d2, tmp, false, 0⟩
  | Except.ok msg => stepSend sender app_password recipients msg tmp d2 relay

/-- The staging of `more_files`: an exception leaves the paths of the
failed call out of `tmp_paths`, so only `p1` is cleaned up. -/
def stepStage2 (sender app_password : Str) (recipients : List Str)
    (subject body : Str) (moreFiles : List UploadedFile) (p1 : List Str)
    (d1 : Disk) (wfail : Nat → Bool) (rfail : Str → Bool)
    (relay : RelayBehavior) : HandlerOut :=
  match (if moreFiles.isEmpty then (⟨d1, [], Except.ok []⟩ : StageOut)
         else save_uploaded_files_to_tmp moreFiles d1 wfail) with
  | ⟨d2, _, Except.error e⟩ => ⟨Outcome.uncaught e, cleanup p1 d2, p1, false, 0⟩
  | ⟨d2, _, Except.ok p2⟩ =>
    stepBuild sender app_password recipients subject body (p1 ++ p2) d2 rfail relay

def afterValidation (sender app_password : Str) (recipients : List Str)
    (subject body : Str) (defaultFiles moreFiles : List UploadedFile)
    (d : Disk) (wfail : Nat → Bool) (rfail : Str → Bool)
    (relay : RelayBehavior) : HandlerOut :=
  match (if defaultFiles.isEmpty then (⟨d, [], Except.ok []⟩ : StageOut)
         else save_uploaded_files_to_tmp defaultFiles d wfail) with
  | ⟨d1, _, Except.error e⟩ => ⟨Outcome.uncaught e, cleanup [] d1, [], false, 0⟩
  | ⟨d1, _, Except.ok p1⟩ =>
    stepStage2 sender app_password recipients subject body moreFiles p1 d1
      wfail rfail relay

/-- main.py lines 191-222: the whole send handler. -/
def send_handler (sender app_password raw subject body : Str)
    (defaultFiles moreFiles : List UploadedFile) (d : Disk)
    (wfail : Nat → Bool) (rfail : Str → Bool) (relay : RelayBehavior) :
    HandlerOut :=
  if (pyStrip raw).isEmpty then ⟨Outcome.errorMsg pleaseEnterMsg, d, [], false, 0⟩
  else
    if ((normalize_recipients raw).filter (fun r => !(is_valid_email r))).isEmpty then
      afterValidation sender app_password (normalize_recipients raw) subject body
        defaultFiles moreFiles d wfail rfail relay
    else
      ⟨Outcome.errorMsg
          (invalidEmailsMsg ((normalize_recipients raw).filter (fun r => !(is_valid_email r)))),
        d, [], false, 0⟩

/-! ## DefaultsStore (main.py lines 67-84 and 162-174)

The MongoDB collection is a list of documents; `find_one`/`update_one`
with a `{"user": u}` filter act on the first matching document, and
`update_one(..., upsert=True)` inserts `{user, subject, body,
file_metadata}` when no document matches. -/

structure FileMeta where
  name : Str
  size : Nat
deriving DecidableEq

structure DefaultsDoc where
  user : Str
  subject : Str
  body : Str
  file_metadata : List FileMeta
deriving DecidableEq

abbrev Store := List DefaultsDoc

/-- pymongo find_one with a `{"user": u}` filter: the first matching
document. -/
def findDoc : Store → Str → Option DefaultsDoc
  | [], _ => none
  | doc :: rest, u => if doc.user = u then some doc else findDoc rest u

/-- pymongo update_one with a $set document: overwrite the named fields
of the first matching document, preserving the key. -/
def setFirst : Store → Str → Str → Str → List FileMeta → Store
  | [], _, _, _, _ => []
  | doc :: rest, u, subj, body, meta =>
    if doc.user = u then
      { doc with subject := subj, body := body, file_metadata := meta } :: rest
    else doc :: setFirst rest u subj body meta

def hasUser (docs : Store) (u : Str) : Bool :=
  docs.any (fun doc => doc.user == u)

/-- pymongo update_one with a $set document and upsert=True: update the
first matching document, or insert `{user, subject, body, file_metadata}`
when none matches. -/
def update_one_upsert (st : Store) (u subj body : Str) (meta : List FileMeta) : Store :=
  if hasUser st u then setFirst st u subj body meta
  else st ++ [⟨u, subj, body, meta⟩]

/-- main.py lines 151-171: the save-defaults handler; returns the new
store and the metadata list it computed from the uploaded files. -/
def save_defaults (st : Store) (u subj body : Str) (d_files : List UploadedFile) :
    Store × List FileMeta :=
  (update_one_upsert st u subj body
      (d_files.map (fun f => (⟨f.name, f.size⟩ : FileMeta))),
    d_files.map (fun f => (⟨f.name, f.size⟩ : FileMeta)))

structure SessionDefaults where
  default_subject : Str
  default_body : Str
  default_file_metadata : List FileMeta
deriving DecidableEq

/-- main.py lines 67-84: load the defaults document into session state,
or insert an empty document if none exists. -/
def load_defaults_from_mongo (st : Store) (u : Str) (sess : SessionDefaults) :
    SessionDefaults × Store :=
  match findDoc st u with
  | some doc => (⟨doc.subject, doc.body, doc.file_metadata⟩, st)
  | none => (sess, st ++ [⟨u, [], [], []⟩])


/-! ## Claim C1: the validator against the spec wording -/

/-- Modelled from the spec wording of claim C1 (not from the source): the
shape `local-part@domain` where the local part is nonempty over letters,
digits and the four specials, and the domain is a dot-joined sequence of
at least two nonempty labels of letters, digits and hyphens. -/
def email_claim_shape (s : Str) : Bool :=
  match splitOnChar '@' s with
  | [l, d] =>
    !l.isEmpty && l.all isLocalChar &&
      (let labels := splitOnChar '.' d
       decide (2 ≤ labels.length) &&
         labels.all (fun lb => !lb.isEmpty && lb.all isDomChar))
  | _ => false

/-- The decomposition actually accepted by the regular expression in
`is_valid_email` (the amended reading of claim C1). -/
def EmailShape (s : Str) : Prop :=
  ∃ l a t e, s = l ++ ['@'] ++ a ++ ['.'] ++ t ++ e ∧
    l ≠ [] ∧ (∀ c ∈ l, isLocalChar c = true) ∧
    a ≠ [] ∧ (∀ c ∈ a, isDomChar c = true) ∧
    t ≠ [] ∧ (∀ c ∈ t, isTailChar c = true) ∧
    (e = [] ∨ e = ['\n'])

theorem takeWhile_dropWhile_split (P : Char → Bool) (l r : Str)
    (hl : ∀ c ∈ l, P c = true) (hr : ∀ c, r.head? = some c → P c = false) :
    (l ++ r).takeWhile P = l ∧ (l ++ r).dropWhile P = r := by
  induction l with
  | nil =>
    simp only [List.nil_append]
    cases r with
    | nil => simp [List.takeWhile, List.dropWhile]
    | cons c r2 =>
      have hc := hr c rfl
      simp [List.takeWhile_cons, List.dropWhile_cons, hc]
  | cons a l2 ih =>
    have ha := hl a (by simp)
    have ih2 := ih (fun c hc => hl c (by simp [hc]))
    simp [List.takeWhile_cons, List.dropWhile_cons, ha, ih2.1, ih2.2]

theorem mem_of_mem_takeWhile {P : Char → Bool} {s : Str} {c : Char}
    (h : c ∈ s.takeWhile P) : P c = true :=
  List.mem_takeWhile_imp h

theorem isLocalChar_at : isLocalChar '@' = false := by decide

theorem isDomChar_dot : isDomChar '.' = false := by decide

theorem isTailChar_nl : isTailChar '\n' = false := by decide

/-- C1 (amended): `is_valid_email s` is true exactly when `s` decomposes as
`local ++ "@" ++ first ++ "." ++ tail ++ end`, with `local` nonempty over
letters, digits and the specials `._+-`, `first` nonempty over letters,
digits and hyphens, `tail` nonempty over letters, digits, hyphens and
dots, and `end` empty or a single final newline. -/
theorem c1_email_validator_amended (s : Str) :
    is_valid_email s = true ↔ EmailShape s := by
  constructor
  · intro h
    unfold is_valid_email at h
    rw [Bool.and_eq_true] at h
    obtain ⟨h1, h2⟩ := h
    have hl : s.takeWhile isLocalChar ≠ [] := by
      intro hnil
      rw [hnil] at h1
      simp at h1
    split at h2
    case h_2 => exact absurd h2 (by simp)
    case h_1 r heq =>
      unfold matchDomainPart at h2
      rw [Bool.and_eq_true] at h2
      obtain ⟨h3, h4⟩ := h2
      have ha : r.takeWhile isDomChar ≠ [] := by
        intro hnil
        rw [hnil] at h3
        simp at h3
      split at h4
      case h_2 => exact absurd h4 (by simp)
      case h_1 t heq2 =>
        unfold matchTailPart at h4
        rw [Bool.and_eq_true] at h4
        obtain ⟨h5, h6⟩ := h4
        have ht : t.takeWhile isTailChar ≠ [] := by
          intro hnil
          rw [hnil] at h5
          simp at h5
        rw [Bool.or_eq_true, beq_iff_eq, beq_iff_eq] at h6
        refine ⟨s.takeWhile isLocalChar, r.takeWhile isDomChar,
          t.takeWhile isTailChar, t.dropWhile isTailChar, ?_, hl,
          fun c hc => mem_of_mem_takeWhile hc, ha,
          fun c hc => mem_of_mem_takeWhile hc, ht,
          fun c hc => mem_of_mem_takeWhile hc, h6⟩
        have e1 : s.takeWhile isLocalChar ++ s.dropWhile isLocalChar = s :=
          List.takeWhile_append_dropWhile isLocalChar s
        have e2 : r.takeWhile isDomChar ++ r.dropWhile isDomChar = r :=
          List.takeWhile_append_dropWhile isDomChar r
        have e3 : t.takeWhile isTailChar ++ t.dropWhile isTailChar = t :=
          List.takeWhile_append_dropWhile isTailChar t
        rw [heq] at e1
        rw [heq2] at e2
        calc s = s.takeWhile isLocalChar ++ '@' :: r := e1.symm
          _ = s.takeWhile isLocalChar ++ '@' :: (r.takeWhile isDomChar ++ '.' :: t) := by
              rw [e2]
          _ = s.takeWhile isLocalChar ++ '@' ::
                (r.takeWhile isDomChar ++ '.' ::
                  (t.takeWhile isTailChar ++ t.dropWhile isTailChar)) := by rw [e3]
          _ = s.takeWhile isLocalChar ++ ['@'] ++ r.takeWhile isDomChar ++ ['.'] ++
                t.takeWhile isTailChar ++ t.dropWhile isTailChar := by simp
  · rintro ⟨l, a, t, e, hs, hl, hlall, ha, haall, ht, htall, he⟩
    have hsplit1 := takeWhile_dropWhile_split isLocalChar l
      ('@' :: (a ++ ['.'] ++ t ++ e)) hlall
      (by intro c hc; cases hc; exact isLocalChar_at)
    have hsplit2 := takeWhile_dropWhile_split isDomChar a
      ('.' :: (t ++ e)) haall (by intro c hc; cases hc; exact isDomChar_dot)
    have hsplit3 := takeWhile_dropWhile_split isTailChar t e htall
      (by
        intro c hc
        rcases he with he | he
        · rw [he] at hc; exact absurd hc (by simp)
        · rw [he] at hc
          cases hc
          exact isTailChar_nl)
    have hs2 : s = l ++ ('@' :: (a ++ ['.'] ++ t ++ e)) := by
      rw [hs]; simp
    unfold is_valid_email
    rw [hs2, hsplit1.1, hsplit1.2]
    have hra : (a ++ ['.'] ++ t ++ e) = a ++ ('.' :: (t ++ e)) := by simp
    rw [Bool.and_eq_true]
    constructor
    · simp [hl]
    · rw [hra]
      show matchDomainPart (a ++ ('.' :: (t ++ e))) = true
      unfold matchDomainPart
      rw [hsplit2.1, hsplit2.2]
      rw [Bool.and_eq_true]
      constructor
      · simp [ha]
      · show matchTailPart (t ++ e) = true
        unfold matchTailPart
        rw [hsplit3.1, hsplit3.2]
        rw [Bool.and_eq_true]
        constructor
        · simp [ht]
        · rcases he with he | he <;> simp [he]

/-- C1 counterexample: the code accepts `"a@b.c\n"`, which contains
whitespace (a newline), and accepts `"a@b..c"`, whose domain is not a
dot-joined sequence of nonempty labels, while the claimed shape rejects
both. -/
theorem c1_counterexample :
    is_valid_email ("a@b.c\n".data) = true ∧
    (("a@b.c\n".data).any (fun c => c.isWhitespace)) = true ∧
    email_claim_shape ("a@b.c\n".data) = false ∧
    is_valid_email ("a@b..c".data) = true ∧
    email_claim_shape ("a@b..c".data) = false := by decide

/-! ## Normalization lemmas (for claims C2 and C3) -/

theorem mem_of_mem_splitOnChar (sep : Char) (s : Str) (piece : Str) (c : Char)
    (hp : piece ∈ splitOnChar sep s) (hc : c ∈ piece) : c ∈ s := by
  induction s generalizing piece with
  | nil =>
    simp only [splitOnChar, List.mem_singleton] at hp
    subst hp
    exact absurd hc (List.not_mem_nil c)
  | cons x rest ih =>
    rw [splitOnChar] at hp
    by_cases hx : x = sep
    · rw [if_pos hx] at hp
      rcases List.mem_cons.mp hp with hp | hp
      · subst hp
        exact absurd hc (List.not_mem_nil c)
      · exact List.mem_cons_of_mem x (ih piece hp hc)
    · rw [if_neg hx] at hp
      cases hsp : splitOnChar sep rest with
      | nil =>
        rw [hsp] at hp
        simp only [List.mem_singleton] at hp
        subst hp
        rcases List.mem_cons.mp hc with rfl | hc2
        · exact List.mem_cons_self _ _
        · exact absurd hc2 (List.not_mem_nil _)
      | cons p ps =>
        rw [hsp] at hp
        rcases List.mem_cons.mp hp with hp | hp
        · subst hp
          rcases List.mem_cons.mp hc with rfl | hc2
          · exact List.mem_cons_self _ _
          · exact List.mem_cons_of_mem _
              (ih p (by rw [hsp]; exact List.mem_cons_self p ps) hc2)
        · exact List.mem_cons_of_mem x
            (ih piece (by rw [hsp]; exact List.mem_cons_of_mem p hp) hc)

theorem all_space_of_pyStrip_nil (s : Str) (h : pyStrip s = []) :
    ∀ c ∈ s, pyIsSpace c = true := by
  unfold pyStrip at h
  rw [List.reverse_eq_nil_iff, List.dropWhile_eq_nil_iff] at h
  intro c hc
  rw [← List.takeWhile_append_dropWhile pyIsSpace s] at hc
  rcases List.mem_append.mp hc with h1 | h2
  · exact mem_of_mem_takeWhile h1
  · exact h c (List.mem_reverse.mpr h2)

theorem pyStrip_nil_of_all (s : Str) (h : ∀ c ∈ s, pyIsSpace c = true) :
    pyStrip s = [] := by
  unfold pyStrip
  rw [List.dropWhile_eq_nil_iff.mpr h]
  rfl

theorem normalize_nil_of_strip_nil (raw : Str) (h : pyStrip raw = []) :
    normalize_recipients raw = [] := by
  have hall := all_space_of_pyStrip_nil raw h
  unfold normalize_recipients
  rw [List.filter_eq_nil_iff]
  intro piece hpiece
  rw [List.mem_map] at hpiece
  obtain ⟨q, hq, rfl⟩ := hpiece
  have hqnil : pyStrip q = [] :=
    pyStrip_nil_of_all q (fun c hc =>
      hall c (mem_of_mem_splitOnChar ',' raw q c hq hc))
  rw [hqnil]
  simp

/-! ## Claims C2, C3, C4: the send handler -/

/-- C2 (amended): the guard tests whether the raw recipients string is
whitespace-only (Python `recipients_raw.strip()` falsy), not whether the
normalized list is empty.  When the stripped string is empty the send
action fails with the no-recipient error and performs no staging, no
message build, and no send attempt. -/
theorem c2_whitespace_guard (sender app_password raw subject body : Str)
    (defaultFiles moreFiles : List UploadedFile) (d : Disk)
    (wfail : Nat → Bool) (rfail : Str → Bool) (relay : RelayBehavior)
    (h : pyStrip raw = []) :
    send_handler sender app_password raw subject body defaultFiles moreFiles
        d wfail rfail relay =
      ⟨Outcome.errorMsg pleaseEnterMsg, d, [], false, 0⟩ := by
  unfold send_handler
  rw [if_pos (by rw [h]; rfl)]

/-- C2 witness: a whitespace-only input takes the no-recipient branch. -/
theorem c2_witness :
    pyStrip (" ".data) = [] ∧
    send_handler [] [] (" ".data) [] [] [] [] ⟨[], 0⟩ (fun _ => false)
        (fun _ => false) (RelayBehavior.refuse []) =
      ⟨Outcome.errorMsg pleaseEnterMsg, ⟨[], 0⟩, [], false, 0⟩ :=
  ⟨by decide,
    c2_whitespace_guard [] [] (" ".data) [] [] [] [] ⟨[], 0⟩ (fun _ => false)
      (fun _ => false) (RelayBehavior.refuse []) (by decide)⟩

/-- C2 counterexample: for the input `","` the normalized recipient list
is empty, yet the handler does not fail with the no-recipient error: it
stages a file, builds a message and makes a send attempt. -/
theorem c2_counterexample :
    normalize_recipients (",".data) = [] ∧
    (send_handler [] [] (",".data) [] [] [⟨"f.txt".data, 1, [7]⟩] [] ⟨[], 0⟩
        (fun _ => false) (fun _ => false) (RelayBehavior.refuse [])).tmp_paths ≠ [] ∧
    (send_handler [] [] (",".data) [] [] [⟨"f.txt".data, 1, [7]⟩] [] ⟨[], 0⟩
        (fun _ => false) (fun _ => false) (RelayBehavior.refuse [])).built = true ∧
    (send_handler [] [] (",".data) [] [] [⟨"f.txt".data, 1, [7]⟩] [] ⟨[], 0⟩
        (fun _ => false) (fun _ => false) (RelayBehavior.refuse [])).sendAttempts = 1 ∧
    (send_handler [] [] (",".data) [] [] [⟨"f.txt".data, 1, [7]⟩] [] ⟨[], 0⟩
        (fun _ => false) (fun _ => false) (RelayBehavior.refuse [])).outcome ≠
      Outcome.errorMsg pleaseEnterMsg := by decide

/-- C3: when at least one normalized recipient fails `is_valid_email`,
the send action fails with the invalid-addresses error listing exactly
the failing addresses, the disk is untouched, nothing is staged, no
message is built, and no send attempt is made. -/
theorem c3_invalid_recipients_abort (sender app_password raw subject body : Str)
    (defaultFiles moreFiles : List UploadedFile) (d : Disk)
    (wfail : Nat → Bool) (rfail : Str → Bool) (relay : RelayBehavior)
    (h : (normalize_recipients raw).filter (fun r => !(is_valid_email r)) ≠ []) :
    send_handler sender app_password raw subject body defaultFiles moreFiles
        d wfail rfail relay =
      ⟨Outcome.errorMsg
          (invalidEmailsMsg
            ((normalize_recipients raw).filter (fun r => !(is_valid_email r)))),
        d, [], false, 0⟩ := by
  have hnorm : normalize_recipients raw ≠ [] := by
    intro hn
    rw [hn] at h
    exact h rfl
  have hstrip : ¬((pyStrip raw).isEmpty = true) := by
    intro hempty
    have hnil : pyStrip raw = [] := by
      cases hps : pyStrip raw with
      | nil => rfl
      | cons a b => rw [hps] at hempty; simp at hempty
    exact hnorm (normalize_nil_of_strip_nil raw hnil)
  have hinv : ¬(((normalize_recipients raw).filter
      (fun r => !(is_valid_email r))).isEmpty = true) := by
    cases hf : (normalize_recipients raw).filter (fun r => !(is_valid_email r)) with
    | nil => exact absurd hf h
    | cons a b => simp
  unfold send_handler
  rw [if_neg hstrip, if_neg hinv]

/-- C3 witness: one valid and one invalid recipient abort the send with
exactly the invalid address listed and no side effect. -/
theorem c3_witness :
    (normalize_recipients ("a@x.com, not-an-email".data)).filter
        (fun r => !(is_valid_email r)) ≠ [] ∧
    send_handler [] [] ("a@x.com, not-an-email".data) [] []
        [⟨"f.txt".data, 1, [7]⟩] [] ⟨[], 0⟩ (fun _ => false) (fun _ => false)
        (RelayBehavior.refuse []) =
      ⟨Outcome.errorMsg ("Invalid email addresses: not-an-email".data),
        ⟨[], 0⟩, [], false, 0⟩ :=
  ⟨by decide, by
    rw [c3_invalid_recipients_abort [] [] ("a@x.com, not-an-email".data) [] []
      [⟨"f.txt".data, 1, [7]⟩] [] ⟨[], 0⟩ (fun _ => false) (fun _ => false)
      (RelayBehavior.refuse []) (by decide)]
    decide⟩

/-! ## Cleanup lemmas (claim C4) -/

theorem diskLookup_removeFile_self (files : List (Str × Bytes)) (p : Str) :
    diskLookup (removeFile files p) p = none := by
  induction files with
  | nil => rfl
  | cons e rest ih =>
    rw [removeFile]
    by_cases hp : e.1 = p
    · rw [if_pos hp]
      exact ih
    · rw [if_neg hp, diskLookup, if_neg hp]
      exact ih

theorem diskLookup_removeFile_none (files : List (Str × Bytes)) (p q : Str)
    (h : diskLookup files q = none) :
    diskLookup (removeFile files p) q = none := by
  induction files with
  | nil => rfl
  | cons e rest ih =>
    rw [diskLookup] at h
    by_cases hq : e.1 = q
    · rw [if_pos hq] at h
      exact absurd h (by simp)
    · rw [if_neg hq] at h
      rw [removeFile]
      by_cases hp : e.1 = p
      · rw [if_pos hp]
        exact ih h
      · rw [if_neg hp, diskLookup, if_neg hq]
        exact ih h

theorem cleanup_preserves_none (ps : List Str) (d : Disk) (q : Str)
    (h : diskLookup d.files q = none) :
    diskLookup (cleanup ps d).files q = none := by
  induction ps generalizing d with
  | nil => exact h
  | cons p rest ih =>
    rw [cleanup]
    apply ih
    by_cases hex : (diskLookup d.files p).isSome
    · rw [if_pos hex]
      exact diskLookup_removeFile_none d.files p q h
    · rw [if_neg hex]
      exact h

theorem cleanup_removes (ps : List Str) (d : Disk) (p : Str) (h : p ∈ ps) :
    diskLookup (cleanup ps d).files p = none := by
  induction ps generalizing d with
  | nil => exact absurd h (List.not_mem_nil p)
  | cons q rest ih =>
    rw [cleanup]
    rcases List.mem_cons.mp h with rfl | hmem
    · apply cleanup_preserves_none
      by_cases hex : (diskLookup d.files p).isSome
      · rw [if_pos hex]
        exact diskLookup_removeFile_self d.files p
      · rw [if_neg hex]
        cases hl : diskLookup d.files p with
        | none => rfl
        | some v => rw [hl] at hex; simp at hex
    · exact ih _ hmem

theorem stepSend_cleanup (sender app_password : Str) (recipients : List Str)
    (msg : EmailMsg) (tmp : List Str) (d2 : Disk) (relay : RelayBehavior)
    (p : Str)
    (hp : p ∈ (stepSend sender app_password recipients msg tmp d2 relay).tmp_paths) :
    diskLookup (stepSend sender app_password recipients msg tmp d2
      relay).disk.files p = none := by
  unfold stepSend at hp ⊢
  cases he : (send_via_gmail_ssl sender app_password recipients msg relay).error with
  | none =>
    rw [he] at hp
    exact cleanup_removes tmp d2 p hp
  | some err =>
    rw [he] at hp
    exact cleanup_removes tmp d2 p hp

theorem stepBuild_cleanup (sender app_password : Str) (recipients : List Str)
    (subject body : Str) (tmp : List Str) (d2 : Disk) (rfail : Str → Bool)
    (relay : RelayBehavior) (p : Str)
    (hp : p ∈ (stepBuild sender app_password recipients subject body tmp d2
      rfail relay).tmp_paths) :
    diskLookup (stepBuild sender app_password recipients subject body tmp d2
      rfail relay).disk.files p = none := by
  unfold stepBuild at hp ⊢
  cases hb : build_message sender recipients subject body tmp d2 rfail with
  | error e =>
    rw [hb] at hp
    exact cleanup_removes tmp d2 p hp
  | ok msg =>
    rw [hb] at hp
    exact stepSend_cleanup sender app_password recipients msg tmp d2 relay p hp

theorem stepStage2_cleanup (sender app_password : Str) (recipients : List Str)
    (subject body : Str) (moreFiles : List UploadedFile) (p1 : List Str)
    (d1 : Disk) (wfail : Nat → Bool) (rfail : Str → Bool)
    (relay : RelayBehavior) (p : Str)
    (hp : p ∈ (stepStage2 sender app_password recipients subject body moreFiles
      p1 d1 wfail rfail relay).tmp_paths) :
    diskLookup (stepStage2 sender app_password recipients subject body moreFiles
      p1 d1 wfail rfail relay).disk.files p = none := by
  unfold stepStage2 at hp ⊢
  rcases hst2 : (if moreFiles.isEmpty then (⟨d1, [], Except.ok []⟩ : StageOut)
      else save_uploaded_files_to_tmp moreFiles d1 wfail) with ⟨d2, w2, r2⟩
  rw [hst2] at hp
  cases r2 with
  | error e => exact cleanup_removes p1 d2 p hp
  | ok p2 =>
    exact stepBuild_cleanup sender app_password recipients subject body
      (p1 ++ p2) d2 rfail relay p hp

theorem afterValidation_cleanup (sender app_password : Str)
    (recipients : List Str) (subject body : Str)
    (defaultFiles moreFiles : List UploadedFile) (d : Disk)
    (wfail : Nat → Bool) (rfail : Str → Bool) (relay : RelayBehavior)
    (p : Str)
    (hp : p ∈ (afterValidation sender app_password recipients subject body
      defaultFiles moreFiles d wfail rfail relay).tmp_paths) :
    diskLookup (afterValidation sender app_password recipients subject body
      defaultFiles moreFiles d wfail rfail relay).disk.files p = none := by
  unfold afterValidation at hp ⊢
  rcases hst1 : (if defaultFiles.isEmpty then (⟨d, [], Except.ok []⟩ : StageOut)
      else save_uploaded_files_to_tmp defaultFiles d wfail) with ⟨d1, w1, r1⟩
  rw [hst1] at hp
  cases r1 with
  | error e => exact absurd hp (List.not_mem_nil p)
  | ok p1 =>
    exact stepStage2_cleanup sender app_password recipients subject body
      moreFiles p1 d1 wfail rfail relay p hp

/-- C4: whatever the staging, build and send steps do (including oracle
failures standing for exceptions), every path accumulated in `tmp_paths`
for the send no longer exists on disk once the handler finishes; cleanup
skips already-missing paths and is itself total. -/
theorem c4_cleanup_after_send (sender app_password raw subject body : Str)
    (defaultFiles moreFiles : List UploadedFile) (d : Disk)
    (wfail : Nat → Bool) (rfail : Str → Bool) (relay : RelayBehavior)
    (p : Str)
    (hp : p ∈ (send_handler sender app_password raw subject body defaultFiles
      moreFiles d wfail rfail relay).tmp_paths) :
    diskLookup (send_handler sender app_password raw subject body defaultFiles
      moreFiles d wfail rfail relay).disk.files p = none := by
  unfold send_handler at hp ⊢
  by_cases h1 : ((pyStrip raw).isEmpty = true)
  · rw [if_pos h1] at hp ⊢
    exact absurd hp (List.not_mem_nil p)
  · rw [if_neg h1] at hp ⊢
    by_cases h2 : (((normalize_recipients raw).filter
        (fun r => !(is_valid_email r))).isEmpty = true)
    · rw [if_pos h2] at hp ⊢
      exact afterValidation_cleanup sender app_password (normalize_recipients raw)
        subject body defaultFiles moreFiles d wfail rfail relay p hp
    · rw [if_neg h2] at hp ⊢
      exact absurd hp (List.not_mem_nil p)

/-- C4 witness: a concrete send that stages one file; its temporary path
is in `tmp_paths` and is gone from the final disk. -/
theorem c4_witness :
    ("/tmp/stmail_.txt".data) ∈
      (send_handler [] [] ("a@x.co".data) [] [] [⟨"f.txt".data, 1, [7]⟩] []
        ⟨[], 0⟩ (fun _ => false) (fun _ => false)
        (RelayBehavior.refuse [])).tmp_paths ∧
    diskLookup (send_handler [] [] ("a@x.co".data) [] [] [⟨"f.txt".data, 1, [7]⟩]
        [] ⟨[], 0⟩ (fun _ => false) (fun _ => false)
        (RelayBehavior.refuse [])).disk.files ("/tmp/stmail_.txt".data) = none :=
  ⟨by decide,
    c4_cleanup_after_send [] [] ("a@x.co".data) [] [] [⟨"f.txt".data, 1, [7]⟩]
      [] ⟨[], 0⟩ (fun _ => false) (fun _ => false) (RelayBehavior.refuse [])
      ("/tmp/stmail_.txt".data) (by decide)⟩

/-! ## Claim C7: build_message -/

theorem gather_none (paths : List Str) (d : Disk) (rfail : Str → Bool)
    (h : ∀ p ∈ paths, diskLookup d.files p = none) :
    gatherAttachments paths d rfail = Except.ok [] := by
  induction paths with
  | nil => rfl
  | cons p ps ih =>
    have hp := h p (List.mem_cons_self p ps)
    simp only [gatherAttachments, hp]
    exact ih (fun q hq => h q (List.mem_cons_of_mem p hq))

/-- C7: the built message joins the recipients into one comma-separated
header, defaults the subject to the fixed placeholder exactly when the
given subject is empty, and silently skips attachment paths that do not
exist on disk; when no path exists the message has zero attachments and
building does not fail. -/
theorem c7_build_message_spec (sender : Str) (recipients : List Str)
    (subject body : Str) (paths : List Str) (d : Disk) (rfail : Str → Bool) :
    (∀ m, build_message sender recipients subject body paths d rfail = Except.ok m →
        m.toHeader = joinCommaSpace recipients ∧
        m.subject = (if subject.isEmpty then "No Subject".data else subject)) ∧
    ((∀ p ∈ paths, diskLookup d.files p = none) →
      build_message sender recipients subject body paths d rfail =
        Except.ok ⟨sender, joinCommaSpace recipients,
          (if subject.isEmpty then "No Subject".data else subject), body, []⟩) := by
  constructor
  · intro m hm
    unfold build_message at hm
    cases hg : gatherAttachments paths d rfail with
    | error e =>
      rw [hg] at hm
      exact absurd hm (by simp)
    | ok atts =>
      rw [hg] at hm
      cases hm
      exact ⟨rfl, rfl⟩
  · intro hnone
    unfold build_message
    rw [gather_none paths d rfail hnone]

/-- C7 witness: empty subject and a nonexistent attachment path give the
placeholder subject and zero attachments. -/
theorem c7_witness :
    (∀ p ∈ (["/missing.txt".data] : List Str),
        diskLookup (⟨[], 0⟩ : Disk).files p = none) ∧
    build_message ("s@x.co".data) ["a@x.co".data, "b@x.co".data] [] ("hi".data)
        ["/missing.txt".data] ⟨[], 0⟩ (fun _ => false) =
      Except.ok ⟨"s@x.co".data, "a@x.co, b@x.co".data, "No Subject".data,
        "hi".data, []⟩ :=
  ⟨by decide,
    by
      rw [(c7_build_message_spec ("s@x.co".data) ["a@x.co".data, "b@x.co".data]
        [] ("hi".data) ["/missing.txt".data] ⟨[], 0⟩ (fun _ => false)).2
        (by decide)]
      rfl⟩

/-! ## Claim C9: send_via_gmail_ssl -/

/-- C9 (amended): the transport never raises (it is a total function into
a result), makes exactly one session attempt with no retry, and
classifies the relay behaviour: authentication failure and other
transport failures map to their fixed descriptions, while the
recipients-refused description is returned exactly when the relay refuses
every envelope recipient; a partial refusal (at least one recipient
accepted) reports success. -/
theorem c9_transport_classification (sender app_password : Str)
    (recipients : List Str) (msg : EmailMsg) (relay : RelayBehavior) :
    (send_via_gmail_ssl sender app_password recipients msg relay).attempts = 1 ∧
    (relay = RelayBehavior.authFail →
      (send_via_gmail_ssl sender app_password recipients msg relay).error =
        some authFailedMsg) ∧
    (∀ e, relay = RelayBehavior.failWith e →
      (send_via_gmail_ssl sender app_password recipients msg relay).error =
        some (sendFailMsg e)) ∧
    (∀ refused, relay = RelayBehavior.refuse refused →
      ((recipients.all (fun r => refused.contains r) = true →
          (send_via_gmail_ssl sender app_password recipients msg relay).error =
            some refusedMsg) ∧
        (recipients.all (fun r => refused.contains r) = false →
          (send_via_gmail_ssl sender app_password recipients msg relay).error =
            none))) := by
  refine ⟨rfl, ?_, ?_, ?_⟩
  · intro h
    subst h
    rfl
  · intro e h
    subst h
    rfl
  · intro refused h
    subst h
    constructor
    · intro hall
      simp only [send_via_gmail_ssl, hall]
      rfl
    · intro hall
      simp only [send_via_gmail_ssl, hall]
      rfl

/-- C9 counterexample: the relay refuses one of two envelope recipients
(and accepts the other); the function reports success rather than the
recipients-refused description. -/
theorem c9_counterexample :
    (send_via_gmail_ssl [] [] ["a@x.co".data, "b@x.co".data]
        ⟨[], [], [], [], []⟩ (RelayBehavior.refuse ["a@x.co".data])).error =
      none := by decide

/-- C9 witness: an authentication failure is classified with one attempt. -/
theorem c9_witness :
    (send_via_gmail_ssl [] [] [] ⟨[], [], [], [], []⟩
        RelayBehavior.authFail).attempts = 1 ∧
    (send_via_gmail_ssl [] [] [] ⟨[], [], [], [], []⟩
        RelayBehavior.authFail).error = some authFailedMsg :=
  ⟨(c9_transport_classification [] [] [] ⟨[], [], [], [], []⟩
      RelayBehavior.authFail).1,
    (c9_transport_classification [] [] [] ⟨[], [], [], [], []⟩
      RelayBehavior.authFail).2.1 rfl⟩

/-! ## Claim C10: the defaults store round-trip -/

theorem findDoc_setFirst (docs : Store) (u subj body : Str)
    (meta : List FileMeta) (h : hasUser docs u = true) :
    ∃ d0, findDoc (setFirst docs u subj body meta) u = some d0 ∧
      d0.subject = subj ∧ d0.body = body ∧ d0.file_metadata = meta := by
  induction docs with
  | nil => simp [hasUser] at h
  | cons doc rest ih =>
    by_cases hu : doc.user = u
    · refine ⟨{ doc with subject := subj, body := body, file_metadata := meta },
        ?_, rfl, rfl, rfl⟩
      rw [setFirst, if_pos hu, findDoc, if_pos hu]
    · have h2 : hasUser rest u = true := by
        unfold hasUser at h
        rw [List.any_cons, Bool.or_eq_true] at h
        rcases h with h | h
        · exact absurd (by exact beq_iff_eq.mp h) hu
        · exact h
      obtain ⟨d0, hd, e1, e2, e3⟩ := ih h2
      exact ⟨d0, by rw [setFirst, if_neg hu, findDoc, if_neg hu]; exact hd,
        e1, e2, e3⟩

theorem findDoc_not_found (docs : Store) (u : Str) (h : hasUser docs u = false) :
    findDoc docs u = none := by
  induction docs with
  | nil => rfl
  | cons doc rest ih =>
    unfold hasUser at h
    rw [List.any_cons, Bool.or_eq_false_iff] at h
    rw [findDoc, if_neg (fun he => by rw [he] at h; simp at h)]
    exact ih h.2

theorem findDoc_append (docs1 docs2 : Store) (u : Str)
    (h : findDoc docs1 u = none) :
    findDoc (docs1 ++ docs2) u = findDoc docs2 u := by
  induction docs1 with
  | nil => rfl
  | cons doc rest ih =>
    rw [findDoc] at h
    by_cases hu : doc.user = u
    · rw [if_pos hu] at h
      exact absurd h (by simp)
    · rw [if_neg hu] at h
      rw [List.cons_append, findDoc, if_neg hu]
      exact ih h

/-- C10: saving defaults for an owner and then loading that owner yields
exactly the saved subject, body and attachment metadata, whether or not a
document for the owner existed before (the save is an upsert keyed on the
owner). -/
theorem c10_defaults_roundtrip (st : Store) (u subj body : Str)
    (files : List UploadedFile) (sess : SessionDefaults) :
    (load_defaults_from_mongo (save_defaults st u subj body files).1 u sess).1 =
      ⟨subj, body, files.map (fun f => (⟨f.name, f.size⟩ : FileMeta))⟩ := by
  unfold save_defaults load_defaults_from_mongo update_one_upsert
  by_cases h : hasUser st u = true
  · rw [if_pos h]
    obtain ⟨d0, hd, e1, e2, e3⟩ := findDoc_setFirst st u subj body
      (files.map (fun f => (⟨f.name, f.size⟩ : FileMeta))) h
    obtain ⟨u0, s0, b0, m0⟩ := d0
    rw [hd]
    subst e1
    subst e2
    subst e3
    rfl
  · rw [if_neg h]
    rw [findDoc_append st [⟨u, subj, body,
      files.map (fun f => (⟨f.name, f.size⟩ : FileMeta))⟩] u
      (findDoc_not_found st u (by
        cases hb : hasUser st u with
        | false => rfl
        | true => exact absurd hb h))]
    rw [findDoc, if_pos rfl]

/-! ## Claim C6: staging failure behaviour -/

/-- C6 (amended): an I/O failure while writing one within-cap file aborts
the whole staging call: the exception propagates at once (no staged-path
list is returned to the caller) and the remaining files of the batch are
not staged. -/
theorem c6_stage_abort (f : UploadedFile) (fs : List UploadedFile) (d : Disk)
    (wfail : Nat → Bool) (h1 : ¬(f.size > maxSize))
    (h2 : wfail d.counter = true) :
    save_uploaded_files_to_tmp (f :: fs) d wfail =
      ⟨addFile d (tmpPath d.counter (splitext_ext f.name)) [], [],
        Except.error writeFailMsg⟩ := by
  unfold save_uploaded_files_to_tmp
  rw [if_neg h1, if_pos h2]

/-- C6 counterexample: with two within-cap files and a write failure on
the first, the whole batch is aborted with an error and the second
file's content is staged nowhere on disk. -/
theorem c6_counterexample :
    (save_uploaded_files_to_tmp
        [⟨"a.txt".data, 1, [7]⟩, ⟨"b.txt".data, 1, [9]⟩] ⟨[], 0⟩
        (fun k => k == 0)).result = Except.error writeFailMsg ∧
    ((save_uploaded_files_to_tmp
        [⟨"a.txt".data, 1, [7]⟩, ⟨"b.txt".data, 1, [9]⟩] ⟨[], 0⟩
        (fun k => k == 0)).disk.files.all (fun en => !(en.2 == [9]))) = true :=
  ⟨rfl, by decide⟩

/-- C6 witness: the abort equation at the concrete failing batch. -/
theorem c6_witness :
    ¬((⟨"a.txt".data, 1, [7]⟩ : UploadedFile).size > maxSize) ∧
    (fun k => k == 0) (⟨([] : List (Str × Bytes)), 0⟩ : Disk).counter = true ∧
    save_uploaded_files_to_tmp
        [⟨"a.txt".data, 1, [7]⟩, ⟨"b.txt".data, 1, [9]⟩] ⟨[], 0⟩
        (fun k => k == 0) =
      ⟨addFile ⟨[], 0⟩ (tmpPath 0 (splitext_ext ("a.txt".data))) [], [],
        Except.error writeFailMsg⟩ :=
  ⟨by decide, by decide,
    c6_stage_abort ⟨"a.txt".data, 1, [7]⟩ [⟨"b.txt".data, 1, [9]⟩] ⟨[], 0⟩
      (fun k => k == 0) (by decide) (by decide)⟩

/-! ## Claim C5: staging specification -/

theorem extLike_splitext (s : Str) : extLike (splitext_ext s) = true := by
  unfold splitext_ext
  split
  · rfl
  · split
    · rfl
    · rw [List.reverse_append]
      rfl

theorem tmpPath_inj_aux (k1 k2 : Nat) (e1 e2 : Str) (h1 : extLike e1 = true)
    (h2 : extLike e2 = true)
    (h : List.replicate k1 'u' ++ e1 = List.replicate k2 'u' ++ e2) :
    k1 = k2 := by
  induction k1 generalizing k2 with
  | zero =>
    cases k2 with
    | zero => rfl
    | succ n =>
      rw [List.replicate_zero, List.nil_append, List.replicate_succ,
        List.cons_append] at h
      cases e1 with
      | nil => simp at h
      | cons c cs =>
        have hcdot : (c == '.') = true := h1
        have hcu : c = 'u' := by
          injection h with h3 h4
        rw [hcu] at hcdot
        simp at hcdot
  | succ n1 ih =>
    cases k2 with
    | zero =>
      rw [List.replicate_zero, List.nil_append, List.replicate_succ,
        List.cons_append] at h
      cases e2 with
      | nil => simp at h
      | cons c cs =>
        have hcdot : (c == '.') = true := h2
        have hcu : c = 'u' := by
          injection h with h3 h4
          exact h3.symm
        rw [hcu] at hcdot
        simp at hcdot
    | succ n2 =>
      rw [List.replicate_succ, List.cons_append, List.replicate_succ,
        List.cons_append] at h
      injection h with h3 h4
      exact congrArg Nat.succ (ih n2 h4)

theorem tmpPath_inj (k1 k2 : Nat) (e1 e2 : Str) (h1 : extLike e1 = true)
    (h2 : extLike e2 = true) (h : tmpPath k1 e1 = tmpPath k2 e2) :
    k1 = k2 := by
  unfold tmpPath at h
  rw [List.append_assoc, List.append_assoc] at h
  exact tmpPath_inj_aux k1 k2 e1 e2 h1 h2 (List.append_cancel_left h)

theorem diskLookup_fresh (files : List (Str × Bytes)) (counter : Nat) (e : Str)
    (hinv : ∀ en ∈ files, ∃ k ext, extLike ext = true ∧ k < counter ∧
      en.1 = tmpPath k ext)
    (he : extLike e = true) : diskLookup files (tmpPath counter e) = none := by
  induction files with
  | nil => rfl
  | cons en rest ih =>
    obtain ⟨k, ext, hext, hk, heq⟩ := hinv en (List.mem_cons_self en rest)
    have hne : ¬(en.1 = tmpPath counter e) := by
      intro hcontra
      rw [heq] at hcontra
      exact absurd (tmpPath_inj k counter ext e hext he hcontra)
        (Nat.ne_of_lt hk)
    rw [diskLookup, if_neg hne]
    exact ih (fun x hx => hinv x (List.mem_cons_of_mem en hx))

theorem DiskInv_addFile (d : Disk) (e : Str) (c : Bytes) (hinv : DiskInv d)
    (he : extLike e = true) :
    DiskInv (addFile d (tmpPath d.counter e) c) := by
  intro en hen
  rcases List.mem_cons.mp hen with rfl | hen2
  · exact ⟨d.counter, e, he, Nat.lt_succ_self d.counter, rfl⟩
  · obtain ⟨k, ext, hext, hk, heq⟩ := hinv en hen2
    exact ⟨k, ext, hext, Nat.lt_succ_of_lt hk, heq⟩

theorem save_preserves_lookup (files : List UploadedFile) (d : Disk)
    (wfail : Nat → Bool) (hw : ∀ k, wfail k = false) (q : Str) (v : Bytes)
    (hinv : DiskInv d) (h : diskLookup d.files q = some v) :
    diskLookup (save_uploaded_files_to_tmp files d wfail).disk.files q =
      some v := by
  induction files generalizing d with
  | nil => exact h
  | cons f fs ih =>
    unfold save_uploaded_files_to_tmp
    by_cases hsize : f.size > maxSize
    · rw [if_pos hsize]
      exact ih d hinv h
    · rw [if_neg hsize, if_neg (by simp [hw])]
      have hfresh : diskLookup d.files
          (tmpPath d.counter (splitext_ext f.name)) = none :=
        diskLookup_fresh d.files d.counter (splitext_ext f.name) hinv
          (extLike_splitext f.name)
      have hq : diskLookup
          (addFile d (tmpPath d.counter (splitext_ext f.name)) f.content).files
          q = some v := by
        unfold addFile
        rw [diskLookup, if_neg ?hne]
        · exact h
        case hne =>
          intro hcontra
          rw [show ((tmpPath d.counter (splitext_ext f.name), f.content) :
            Str × Bytes).1 = tmpPath d.counter (splitext_ext f.name) from rfl]
            at hcontra
          rw [← hcontra] at h
          rw [h] at hfresh
          exact Option.noConfusion hfresh
      have hrec := ih (addFile d (tmpPath d.counter (splitext_ext f.name))
        f.content) (DiskInv_addFile d (splitext_ext f.name) f.content hinv
        (extLike_splitext f.name)) hq
      rcases hsave : save_uploaded_files_to_tmp fs
          (addFile d (tmpPath d.counter (splitext_ext f.name)) f.content)
          wfail with ⟨d2, w2, r2⟩
      rw [hsave] at hrec
      cases r2 with
      | ok ps => exact hrec
      | error e => exact hrec

theorem lookup_addFile_self (d : Disk) (p : Str) (c : Bytes) :
    diskLookup (addFile d p c).files p = some c := by
  unfold addFile
  rw [diskLookup, if_pos rfl]

theorem lookup_addFile_none (d : Disk) (p : Str) (c : Bytes) (q : Str)
    (h : diskLookup (addFile d p c).files q = none) :
    diskLookup d.files q = none := by
  unfold addFile at h
  rw [diskLookup] at h
  by_cases hpq : ((p, c) : Str × Bytes).1 = q
  · rw [if_pos hpq] at h
    exact Option.noConfusion h
  · rw [if_neg hpq] at h
    exact h

/-- C5: with no I/O failure, staging returns exactly one fresh, distinct
temporary path per within-cap file, in input order; each staged path holds
that file's content on the resulting disk and ends with the file's
original extension; each oversized file is skipped and produces exactly
one warning naming it. -/
theorem c5_stage_spec (files : List UploadedFile) (d : Disk)
    (hinv : DiskInv d) :
    ∃ paths,
      (save_uploaded_files_to_tmp files d (fun _ => false)).result =
        Except.ok paths ∧
      paths.length =
        (files.filter (fun g => !(decide (g.size > maxSize)))).length ∧
      (save_uploaded_files_to_tmp files d (fun _ => false)).warnings =
        (files.filter (fun g => decide (g.size > maxSize))).map
          (fun g => warnMsg g.name) ∧
      paths.Nodup ∧
      (∀ p ∈ paths, diskLookup d.files p = none) ∧
      (∀ pr ∈ paths.zip
          (files.filter (fun g => !(decide (g.size > maxSize)))),
        diskLookup
            (save_uploaded_files_to_tmp files d (fun _ => false)).disk.files
            pr.1 = some pr.2.content ∧
        ∃ pre, pr.1 = pre ++ splitext_ext pr.2.name) := by
  induction files generalizing d with
  | nil =>
    refine ⟨[], rfl, rfl, rfl, List.nodup_nil, ?_, ?_⟩
    · intro p hp
      exact absurd hp (List.not_mem_nil p)
    · intro pr hpr
      exact absurd hpr (List.not_mem_nil pr)
  | cons f fs ih =>
    by_cases hsize : f.size > maxSize
    · obtain ⟨paths, h1, h2, h3, h4, h5, h6⟩ := ih d hinv
      have heq : save_uploaded_files_to_tmp (f :: fs) d (fun _ => false) =
          ⟨(save_uploaded_files_to_tmp fs d (fun _ => false)).disk,
            warnMsg f.name ::
              (save_uploaded_files_to_tmp fs d (fun _ => false)).warnings,
            (save_uploaded_files_to_tmp fs d (fun _ => false)).result⟩ := by
        rw [save_uploaded_files_to_tmp]
        rw [if_pos hsize]
      have hf1 : (f :: fs).filter (fun g => !(decide (g.size > maxSize))) =
          fs.filter (fun g => !(decide (g.size > maxSize))) := by
        simp [List.filter_cons, hsize]
      have hf2 : (f :: fs).filter (fun g => decide (g.size > maxSize)) =
          f :: fs.filter (fun g => decide (g.size > maxSize)) := by
        simp [List.filter_cons, hsize]
      simp only [heq, hf1, hf2, List.map_cons]
      exact ⟨paths, h1, h2, by rw [h3], h4, h5, h6⟩
    · have hinv1 : DiskInv (addFile d (tmpPath d.counter
          (splitext_ext f.name)) f.content) :=
        DiskInv_addFile d (splitext_ext f.name) f.content hinv
          (extLike_splitext f.name)
      obtain ⟨paths, h1, h2, h3, h4, h5, h6⟩ := ih
        (addFile d (tmpPath d.counter (splitext_ext f.name)) f.content) hinv1
      have heq : save_uploaded_files_to_tmp (f :: fs) d (fun _ => false) =
          ⟨(save_uploaded_files_to_tmp fs
              (addFile d (tmpPath d.counter (splitext_ext f.name)) f.content)
              (fun _ => false)).disk,
            (save_uploaded_files_to_tmp fs
              (addFile d (tmpPath d.counter (splitext_ext f.name)) f.content)
              (fun _ => false)).warnings,
            Except.ok (tmpPath d.counter (splitext_ext f.name) :: paths)⟩ := by
        rw [save_uploaded_files_to_tmp]
        rw [if_neg hsize, if_neg (by simp)]
        rcases hsave : save_uploaded_files_to_tmp fs
            (addFile d (tmpPath d.counter (splitext_ext f.name)) f.content)
            (fun _ => false) with ⟨d2, w2, r2⟩
        rw [hsave] at h1
        cases r2 with
        | error e => exact absurd h1 (by simp)
        | ok ps =>
          have hps : ps = paths := by
            injection h1
          rw [hps]
      have hf1 : (f :: fs).filter (fun g => !(decide (g.size > maxSize))) =
          f :: fs.filter (fun g => !(decide (g.size > maxSize))) := by
        simp [List.filter_cons, hsize]
      have hf2 : (f :: fs).filter (fun g => decide (g.size > maxSize)) =
          fs.filter (fun g => decide (g.size > maxSize)) := by
        simp [List.filter_cons, hsize]
      have hfresh : diskLookup d.files
          (tmpPath d.counter (splitext_ext f.name)) = none :=
        diskLookup_fresh d.files d.counter (splitext_ext f.name) hinv
          (extLike_splitext f.name)
      simp only [heq, hf1, hf2]
      refine ⟨tmpPath d.counter (splitext_ext f.name) :: paths, rfl, ?_, h3,
        ?_, ?_, ?_⟩
      · rw [List.length_cons, List.length_cons, h2]
      · rw [List.nodup_cons]
        refine ⟨?_, h4⟩
        intro hmem
        have := h5 (tmpPath d.counter (splitext_ext f.name)) hmem
        rw [lookup_addFile_self d (tmpPath d.counter (splitext_ext f.name))
          f.content] at this
        exact Option.noConfusion this
      · intro p hp
        rcases List.mem_cons.mp hp with rfl | hp2
        · exact hfresh
        · exact lookup_addFile_none d
            (tmpPath d.counter (splitext_ext f.name)) f.content p (h5 p hp2)
      · intro pr hpr
        rw [List.zip_cons_cons] at hpr
        rcases List.mem_cons.mp hpr with rfl | hpr2
        · constructor
          · exact save_preserves_lookup fs
              (addFile d (tmpPath d.counter (splitext_ext f.name)) f.content)
              (fun _ => false) (fun k => rfl)
              (tmpPath d.counter (splitext_ext f.name)) f.content hinv1
              (lookup_addFile_self d
                (tmpPath d.counter (splitext_ext f.name)) f.content)
          · exact ⟨("/tmp/stmail_".data) ++ List.replicate d.counter 'u', rfl⟩
        · exact h6 pr hpr2

/-- C5 witness: two files of which one exceeds the cap give one staged
path and one warning. -/
theorem c5_witness :
    DiskInv ⟨[], 0⟩ ∧
    (∃ paths,
      (save_uploaded_files_to_tmp
          [⟨"a.txt".data, 1, [7]⟩, ⟨"big.bin".data, 10485761, [9]⟩] ⟨[], 0⟩
          (fun _ => false)).result = Except.ok paths ∧
      paths.length =
        (([⟨"a.txt".data, 1, [7]⟩, ⟨"big.bin".data, 10485761, [9]⟩] :
            List UploadedFile).filter
          (fun g => !(decide (g.size > maxSize)))).length ∧
      (save_uploaded_files_to_tmp
          [⟨"a.txt".data, 1, [7]⟩, ⟨"big.bin".data, 10485761, [9]⟩] ⟨[], 0⟩
          (fun _ => false)).warnings =
        (([⟨"a.txt".data, 1, [7]⟩, ⟨"big.bin".data, 10485761, [9]⟩] :
            List UploadedFile).filter
          (fun g => decide (g.size > maxSize))).map (fun g => warnMsg g.name) ∧
      paths.Nodup ∧
      (∀ p ∈ paths, diskLookup (⟨[], 0⟩ : Disk).files p = none) ∧
      (∀ pr ∈ paths.zip
          (([⟨"a.txt".data, 1, [7]⟩, ⟨"big.bin".data, 10485761, [9]⟩] :
              List UploadedFile).filter
            (fun g => !(decide (g.size > maxSize)))),
        diskLookup
            (save_uploaded_files_to_tmp
              [⟨"a.txt".data, 1, [7]⟩, ⟨"big.bin".data, 10485761, [9]⟩]
              ⟨[], 0⟩ (fun _ => false)).disk.files pr.1 = some pr.2.content ∧
        ∃ pre, pr.1 = pre ++ splitext_ext pr.2.name)) :=
  ⟨fun en hen => absurd hen (List.not_mem_nil en),
    c5_stage_spec [⟨"a.txt".data, 1, [7]⟩, ⟨"big.bin".data, 10485761, [9]⟩]
      ⟨[], 0⟩ (fun en hen => absurd hen (List.not_mem_nil en))⟩

/-! ## Claim C8: recipient normalization -/

/-- C8: the raw recipients string is split on commas, each piece is
trimmed, and empty pieces are dropped; the input "a@x.com, ,b@x.com"
normalizes to exactly the two addresses. -/
theorem c8_normalize_example :
    normalize_recipients ("a@x.com, ,b@x.com".data) =
      ["a@x.com".data, "b@x.com".data] := by decide
